import Mathlib

/-!
# Verification of the trading-algorithm core against its specification

This file gives a shallow embedding, in Lean 4, of the parts of the
trading platform that the specification's claims touch:

* `Timeframe` with its `Display`/`FromStr` instances
  (`crates/trading-core/src/types/timeframe.rs`);
* `Bar` / `BarSeries` (`crates/trading-core/src/types/ohlcv.rs`);
* `Position` / `Portfolio` (`crates/trading-core/src/types/position.rs`);
* `Order` / `Fill` and statuses (`crates/trading-core/src/types/order.rs`);
* the paper broker (`crates/trading-broker/src/paper.rs`);
* the risk layer: `PortfolioLimits`, `PositionSizer`, `StopLossManager`
  (`crates/trading-risk/src`);
* the batch and streaming indicators
  (`crates/trading-indicators/src/moving_average.rs`, `momentum.rs`,
  `volatility.rs`).

Modelling conventions:

* Rust's `rust_decimal::Decimal` (exact decimal money/quantity arithmetic)
  is modelled by `ℚ`.  Every arithmetic operation used by the embedded code
  (addition, subtraction, multiplication, division with nonzero divisor,
  `abs`, `min`, `max`, `floor`, comparisons) is exact on `Decimal` inputs in
  the ranges the claims exercise, so `ℚ` is a faithful carrier.  Rust's
  division panics on a zero divisor while `ℚ` returns `0`; wherever a
  division in the source is not guarded by a nonzero test, the theorems
  below carry an explicit hypothesis keeping the divisor nonzero.
* The indicator engine computes on `f64`.  The claims proved about it are
  either purely structural (output lengths) or compare two runs that
  perform the identical sequence of primitive operations in the identical
  order, so they hold for any interpretation of the scalars; we use `ℚ`.
* Wall-clock timestamps (`Utc::now()`), UUID generation and reason-string
  formatting are irrelevant to every claim: timestamp fields of orders and
  fills are omitted, UUIDs are modelled by a fresh-`ℕ` counter, and reason
  strings keep only their constant prefix (no numeric interpolation).
-/

/-! ## Timeframe (`types/timeframe.rs`) -/

/-- `Timeframe` enumeration, from `types/timeframe.rs`. -/
inductive Timeframe where
  | Minute1
  | Minute5
  | Minute15
  | Minute30
  | Hour1
  | Hour4
  | Daily
  | Weekly
  | Monthly
deriving DecidableEq, Repr

/-- `impl fmt::Display for Timeframe` (`timeframe.rs:91-106`). -/
def Timeframe.display : Timeframe → String
  | .Minute1 => "1m"
  | .Minute5 => "5m"
  | .Minute15 => "15m"
  | .Minute30 => "30m"
  | .Hour1 => "1h"
  | .Hour4 => "4h"
  | .Daily => "1d"
  | .Weekly => "1w"
  | .Monthly => "1M"

/-- ASCII lowercasing of one character, as `str::to_lowercase` acts on the
ASCII range (every canonical timeframe string is ASCII). -/
def asciiToLower (c : Char) : Char :=
  if 'A' ≤ c ∧ c ≤ 'Z' then Char.ofNat (c.toNat + 32) else c

/-- `s.to_lowercase()` on ASCII strings: lowercase every character. -/
def strToLower (s : String) : String :=
  ⟨s.data.map asciiToLower⟩

instance {ε α : Type} [DecidableEq ε] [DecidableEq α] : DecidableEq (Except ε α)
  | .ok a, .ok b =>
      if h : a = b then isTrue (congrArg _ h)
      else isFalse (fun hc => h (Except.ok.inj hc))
  | .error a, .error b =>
      if h : a = b then isTrue (congrArg _ h)
      else isFalse (fun hc => h (Except.error.inj hc))
  | .ok _, .error _ => isFalse (fun hc => Except.noConfusion hc)
  | .error _, .ok _ => isFalse (fun hc => Except.noConfusion hc)

/-- `impl FromStr for Timeframe` (`timeframe.rs:108-125`).  The source first
lowercases the input (`s.to_lowercase()`) and then matches; the match arms
are kept in source order, including the `"1M"` arm, which is unreachable
after lowercasing. -/
def Timeframe.from_str (s : String) : Except String Timeframe :=
  let t := strToLower s
  if t = "1m" ∨ t = "1min" ∨ t = "minute" then .ok .Minute1
  else if t = "5m" ∨ t = "5min" then .ok .Minute5
  else if t = "15m" ∨ t = "15min" then .ok .Minute15
  else if t = "30m" ∨ t = "30min" then .ok .Minute30
  else if t = "1h" ∨ t = "1hour" ∨ t = "hour" then .ok .Hour1
  else if t = "4h" ∨ t = "4hour" then .ok .Hour4
  else if t = "1d" ∨ t = "day" ∨ t = "daily" then .ok .Daily
  else if t = "1w" ∨ t = "week" ∨ t = "weekly" then .ok .Weekly
  else if t = "1M" ∨ t = "month" ∨ t = "monthly" then .ok .Monthly
  else .error ("Invalid timeframe: " ++ s)

/-- C2: parse-then-display round trip on the nine canonical strings.
The round trip is the identity on eight of the nine variants but FAILS on
`Monthly`: `from_str` lowercases its input before matching, so the
displayed string `"1M"` becomes `"1m"` and parses back as `Minute1`; the
source's `"1M" => Ok(Timeframe::Monthly)` match arm is dead code.  This
theorem records the exact behaviour of the code at all nine canonical
strings. -/
theorem timeframe_roundtrip_monthly_bug :
    Timeframe.from_str (Timeframe.display .Minute1) = .ok .Minute1 ∧
    Timeframe.from_str (Timeframe.display .Minute5) = .ok .Minute5 ∧
    Timeframe.from_str (Timeframe.display .Minute15) = .ok .Minute15 ∧
    Timeframe.from_str (Timeframe.display .Minute30) = .ok .Minute30 ∧
    Timeframe.from_str (Timeframe.display .Hour1) = .ok .Hour1 ∧
    Timeframe.from_str (Timeframe.display .Hour4) = .ok .Hour4 ∧
    Timeframe.from_str (Timeframe.display .Daily) = .ok .Daily ∧
    Timeframe.from_str (Timeframe.display .Weekly) = .ok .Weekly ∧
    Timeframe.from_str (Timeframe.display .Monthly) = .ok .Minute1 ∧
    Timeframe.from_str "1M" = .ok .Minute1 := by
  refine ⟨?_, ?_, ?_, ?_, ?_, ?_, ?_, ?_, ?_, ?_⟩ <;> decide

/-! ## Side and order enums (`types/order.rs`) -/

/-- Order side, from `types/order.rs`. -/
inductive Side where
  | Buy
  | Sell
deriving DecidableEq, Repr

/-- Order type, from `types/order.rs`. -/
inductive OrderType where
  | Market
  | Limit
  | Stop
  | StopLimit
  | TrailingStop
deriving DecidableEq, Repr

/-- Time in force, from `types/order.rs`. -/
inductive TimeInForce where
  | Day
  | GTC
  | IOC
  | FOK
  | OPG
  | CLS
deriving DecidableEq, Repr

/-- Order status, from `types/order.rs`. -/
inductive OrderStatus where
  | Pending
  | Submitted
  | Accepted
  | PartiallyFilled
  | Filled
  | Canceled
  | Rejected
  | Expired
deriving DecidableEq, Repr

/-- `OrderStatus::is_terminal` (`order.rs:119-127`). -/
def OrderStatus.is_terminal : OrderStatus → Bool
  | .Filled | .Canceled | .Rejected | .Expired => true
  | _ => false

/-- `OrderStatus::is_active` (`order.rs:130-138`). -/
def OrderStatus.is_active : OrderStatus → Bool
  | .Pending | .Submitted | .Accepted | .PartiallyFilled => true
  | _ => false

/-! ## Position (`types/position.rs`) -/

/-- `Position` (`position.rs:11-31`); `Decimal` fields are carried by `ℚ`. -/
structure Position where
  symbol : String
  quantity : ℚ
  avg_entry_price : ℚ
  current_price : ℚ
  market_value : ℚ
  cost_basis : ℚ
  unrealized_pnl : ℚ
  unrealized_pnl_percent : ℚ
  realized_pnl : ℚ
deriving DecidableEq, Repr

/-- `Position::new` (`position.rs:35-52`). -/
def Position.new (symbol : String) (quantity avg_entry_price : ℚ) : Position :=
  { symbol := symbol
    quantity := quantity
    avg_entry_price := avg_entry_price
    current_price := avg_entry_price
    market_value := quantity * avg_entry_price
    cost_basis := quantity * avg_entry_price
    unrealized_pnl := 0
    unrealized_pnl_percent := 0
    realized_pnl := 0 }

/-- `Position::is_flat` (`position.rs:65-67`). -/
def Position.is_flat (p : Position) : Bool :=
  p.quantity = 0

/-- `Position::update_price` (`position.rs:75-84`). -/
def Position.update_price (p : Position) (price : ℚ) : Position :=
  let market_value := p.quantity * price
  let unrealized := market_value - p.cost_basis
  { p with
    current_price := price
    market_value := market_value
    unrealized_pnl := unrealized
    unrealized_pnl_percent :=
      if p.cost_basis ≠ 0 then unrealized / |p.cost_basis| * 100
      else p.unrealized_pnl_percent }

/-- `num_traits::Signed::signum` on `Decimal`: `1`, `-1` or `0`. -/
def qsignum (x : ℚ) : ℚ :=
  if 0 < x then 1 else if x < 0 then -1 else 0

/-- The signed fill quantity computed at the top of `apply_fill`:
`+quantity` for a buy, `-quantity` for a sell (`position.rs:89-92`). -/
def signedQty (side : Side) (quantity : ℚ) : ℚ :=
  match side with | Side.Buy => quantity | Side.Sell => -quantity

/-- `Position::apply_fill` (`position.rs:88-139`).  Returns the updated
position together with the realized P&L of the fill (the Rust method
mutates `self` and returns the realized P&L). -/
def Position.apply_fill (p : Position) (side : Side) (quantity price : ℚ) :
    Position × ℚ :=
  let fill_qty := signedQty side quantity
  if (0 < p.quantity ∧ 0 < fill_qty) ∨ (p.quantity < 0 ∧ fill_qty < 0) ∨
     p.quantity = 0 then
    -- adding to the position: update the average entry price
    let total_cost := p.quantity * p.avg_entry_price + fill_qty * price
    let new_quantity := p.quantity + fill_qty
    let p1 :=
      { p with
        avg_entry_price :=
          if new_quantity ≠ 0 then total_cost / new_quantity
          else p.avg_entry_price
        quantity := new_quantity }
    let p2 := { p1 with cost_basis := p1.quantity * p1.avg_entry_price }
    (p2.update_price p2.current_price, 0)
  else
    -- reducing or reversing the position
    let close_qty := min |fill_qty| |p.quantity|
    let realized :=
      if 0 < p.quantity then close_qty * (price - p.avg_entry_price)
      else close_qty * (p.avg_entry_price - price)
    let remaining := |fill_qty| - close_qty
    let p1 :=
      if 0 < remaining then
        { p with
          quantity := qsignum fill_qty * remaining
          avg_entry_price := price
          realized_pnl := p.realized_pnl + realized }
      else
        { p with
          quantity := p.quantity + fill_qty
          realized_pnl := p.realized_pnl + realized }
    let p2 := { p1 with cost_basis := p1.quantity * p1.avg_entry_price }
    (p2.update_price p2.current_price, realized)

/-- C1: fill accounting of `Position::apply_fill`.
1. A same-direction fill, or a fill onto a flat position, realizes zero
   P&L and sets the average entry price to
   `(old_qty·old_avg + fill_qty·price)/(old_qty + fill_qty)` (the
   hypothesis `old_qty + fill_qty ≠ 0` makes the fraction meaningful; it
   can only fail for a zero-quantity fill onto a flat position).
2. An opposite-direction fill realizes `closed_qty × (price − avg)` on a
   long and `closed_qty × (avg − price)` on a short, with
   `closed_qty = min |fill_qty| |old_qty|`.
3. Starting flat, Buy 100@150 then Buy 100@160 gives quantity 200,
   average entry 155 and zero realized P&L.
4. A long 100@150 fully sold at 160 becomes flat with realized P&L 1000. -/
theorem position_apply_fill_spec :
    (∀ (p : Position) (side : Side) (qty price : ℚ),
      ((0 < p.quantity ∧ 0 < signedQty side qty) ∨
       (p.quantity < 0 ∧ signedQty side qty < 0) ∨ p.quantity = 0) →
      p.quantity + signedQty side qty ≠ 0 →
      (p.apply_fill side qty price).2 = 0 ∧
      (p.apply_fill side qty price).1.avg_entry_price =
        (p.quantity * p.avg_entry_price + signedQty side qty * price) /
          (p.quantity + signedQty side qty)) ∧
    (∀ (p : Position) (side : Side) (qty price : ℚ),
      ¬((0 < p.quantity ∧ 0 < signedQty side qty) ∨
        (p.quantity < 0 ∧ signedQty side qty < 0) ∨ p.quantity = 0) →
      (p.apply_fill side qty price).2 =
        (if 0 < p.quantity then
          min |signedQty side qty| |p.quantity| * (price - p.avg_entry_price)
         else
          min |signedQty side qty| |p.quantity| *
            (p.avg_entry_price - price))) ∧
    (let p1 := ((Position.new "AAPL" 0 0).apply_fill Side.Buy 100 150).1
     let step2 := p1.apply_fill Side.Buy 100 160
     step2.1.quantity = 200 ∧ step2.1.avg_entry_price = 155 ∧
     step2.2 = 0 ∧ step2.1.realized_pnl = 0) ∧
    (let r := (Position.new "AAPL" 100 150).apply_fill Side.Sell 100 160
     r.1.quantity = 0 ∧ r.2 = 1000) := by
  refine ⟨?_, ?_, ?_, ?_⟩
  · intro p side qty price hdir hne
    simp only [Position.apply_fill]
    rw [if_pos hdir]
    refine ⟨rfl, ?_⟩
    simp only [Position.update_price]
    rw [if_pos hne]
  · intro p side qty price hdir
    simp only [Position.apply_fill]
    rw [if_neg hdir]
  · norm_num [Position.apply_fill, Position.new, Position.update_price,
      signedQty, qsignum]
  · norm_num [Position.apply_fill, Position.new, Position.update_price,
      signedQty, qsignum]

/-- Witness for `position_apply_fill_spec`: instantiates the adding branch
at a long 100@150 buying 50 more at 160, and the reducing branch at the
same position selling 40 at 160, with all hypotheses discharged. -/
theorem position_apply_fill_witness :
    ((((0:ℚ) < (Position.new "X" 100 150).quantity ∧
        0 < signedQty Side.Buy 50) ∨
      ((Position.new "X" 100 150).quantity < 0 ∧ signedQty Side.Buy 50 < 0) ∨
      (Position.new "X" 100 150).quantity = 0) ∧
     (Position.new "X" 100 150).quantity + signedQty Side.Buy 50 ≠ 0 ∧
     (((Position.new "X" 100 150).apply_fill Side.Buy 50 160).2 = 0 ∧
      ((Position.new "X" 100 150).apply_fill Side.Buy 50 160).1.avg_entry_price =
        ((Position.new "X" 100 150).quantity *
            (Position.new "X" 100 150).avg_entry_price +
          signedQty Side.Buy 50 * 160) /
          ((Position.new "X" 100 150).quantity + signedQty Side.Buy 50))) ∧
    (¬(((0:ℚ) < (Position.new "X" 100 150).quantity ∧
          0 < signedQty Side.Sell 40) ∨
        ((Position.new "X" 100 150).quantity < 0 ∧ signedQty Side.Sell 40 < 0) ∨
        (Position.new "X" 100 150).quantity = 0) ∧
     ((Position.new "X" 100 150).apply_fill Side.Sell 40 160).2 =
       (if 0 < (Position.new "X" 100 150).quantity then
          min |signedQty Side.Sell 40| |(Position.new "X" 100 150).quantity| *
            (160 - (Position.new "X" 100 150).avg_entry_price)
        else
          min |signedQty Side.Sell 40| |(Position.new "X" 100 150).quantity| *
            ((Position.new "X" 100 150).avg_entry_price - 160))) :=
  ⟨⟨by norm_num [Position.new, signedQty],
    by norm_num [Position.new, signedQty],
    position_apply_fill_spec.1 (Position.new "X" 100 150) Side.Buy 50 160
      (by norm_num [Position.new, signedQty])
      (by norm_num [Position.new, signedQty])⟩,
   ⟨by norm_num [Position.new, signedQty],
    position_apply_fill_spec.2.1 (Position.new "X" 100 150) Side.Sell 40 160
      (by norm_num [Position.new, signedQty])⟩⟩

/-! ## Bars and bar series (`types/ohlcv.rs`) -/

/-- `Bar` (`ohlcv.rs:14-29`): millisecond timestamp as `ℤ`, `f64` price and
volume fields carried by `ℚ` (no arithmetic on them is at stake in the
claims about `BarSeries`). -/
structure Bar where
  timestamp : ℤ
  open_ : ℚ
  high : ℚ
  low : ℚ
  close : ℚ
  volume : ℚ
  vwap : Option ℚ
deriving DecidableEq, Repr

/-- `BarSeries` (`ohlcv.rs:148-157`): bars kept oldest-first, `capacity = 0`
means unlimited. -/
structure BarSeries where
  symbol : String
  timeframe : Timeframe
  bars : List Bar
  capacity : ℕ
deriving Repr

/-- `BarSeries::new` (`ohlcv.rs:161-168`). -/
def BarSeries.new (symbol : String) (timeframe : Timeframe) : BarSeries :=
  { symbol := symbol, timeframe := timeframe, bars := [], capacity := 0 }

/-- `BarSeries::with_capacity` (`ohlcv.rs:172-179`). -/
def BarSeries.with_capacity (symbol : String) (timeframe : Timeframe)
    (capacity : ℕ) : BarSeries :=
  { symbol := symbol, timeframe := timeframe, bars := [], capacity := capacity }

/-- `BarSeries::push` (`ohlcv.rs:182-187`): when a positive capacity is
reached, drop the oldest bar (`pop_front`), then append the new bar. -/
def BarSeries.push (s : BarSeries) (bar : Bar) : BarSeries :=
  let bs := if 0 < s.capacity ∧ s.capacity ≤ s.bars.length
            then s.bars.tail else s.bars
  { s with bars := bs ++ [bar] }

/-- `BarSeries::extend` (`ohlcv.rs:190-194`): push every bar in order. -/
def BarSeries.pushAll (s : BarSeries) (bars : List Bar) : BarSeries :=
  bars.foldl BarSeries.push s

/-- The ordering invariant claimed by the specification: the held bars are
non-decreasing in timestamp. -/
def barsOrdered (bars : List Bar) : Prop :=
  List.Pairwise (fun a b => a.timestamp ≤ b.timestamp) bars

/-- C3 counterexample: `push` performs no ordering check, so pushing a bar
with timestamp 2 and then one with timestamp 1 onto a fresh series leaves
the series out of order — the claimed invariant does not hold for
arbitrary push sequences. -/
theorem barseries_push_unordered_counterexample :
    ¬ barsOrdered (((BarSeries.new "S" Timeframe.Daily).push
        ⟨2, 0, 0, 0, 0, 0, none⟩).push ⟨1, 0, 0, 0, 0, 0, none⟩).bars := by
  simp [barsOrdered, BarSeries.new, BarSeries.push]

/-- Appending the same tail on both sides preserves the suffix relation. -/
theorem suffix_append_same {α : Type} {l₁ l₂ : List α} (t : List α)
    (h : l₁ <:+ l₂) : (l₁ ++ t) <:+ (l₂ ++ t) := by
  obtain ⟨u, rfl⟩ := h
  exact ⟨u, (List.append_assoc u l₁ t).symm⟩

/-- After any sequence of pushes, the held bars form a suffix of
(existing bars ++ pushed bars): `push` only drops from the front and
appends at the back. -/
theorem pushAll_bars_suffix (incoming : List Bar) (s : BarSeries) :
    (s.pushAll incoming).bars <:+ (s.bars ++ incoming) := by
  induction incoming generalizing s with
  | nil => simp [BarSeries.pushAll]
  | cons b rest ih =>
    have step : ((s.push b).pushAll rest).bars <:+ ((s.push b).bars ++ rest) :=
      ih (s.push b)
    have hsub : (s.push b).bars <:+ (s.bars ++ [b]) := by
      simp only [BarSeries.push]
      split
      · exact suffix_append_same [b] (List.tail_suffix s.bars)
      · exact List.suffix_rfl
    have happ : ((s.push b).bars ++ rest) <:+ ((s.bars ++ [b]) ++ rest) :=
      suffix_append_same rest hsub
    have : (s.pushAll (b :: rest)).bars = ((s.push b).pushAll rest).bars := rfl
    rw [this]
    refine (step.trans happ).trans ?_
    simp

/-- C3 (amended): the ordering invariant is preserved by pushes exactly
when the bars arrive in timestamp order — if the concatenation of the
bars already held and the incoming bars is non-decreasing in timestamp,
then after pushing all incoming bars (in order, with FIFO eviction at
capacity) the series is still non-decreasing in timestamp. -/
theorem barseries_pushAll_ordered (s : BarSeries) (incoming : List Bar)
    (h : barsOrdered (s.bars ++ incoming)) :
    barsOrdered (s.pushAll incoming).bars :=
  List.Pairwise.sublist (pushAll_bars_suffix incoming s).sublist h

/-- Witness for `barseries_pushAll_ordered`: pushing timestamps 1 then 2
onto a fresh series yields an ordered series. -/
theorem barseries_pushAll_ordered_witness :
    barsOrdered ((BarSeries.new "S" Timeframe.Daily).bars ++
      [⟨1, 0, 0, 0, 0, 0, none⟩, ⟨2, 0, 0, 0, 0, 0, none⟩]) ∧
    barsOrdered ((BarSeries.new "S" Timeframe.Daily).pushAll
      [⟨1, 0, 0, 0, 0, 0, none⟩, ⟨2, 0, 0, 0, 0, 0, none⟩]).bars :=
  ⟨by simp [barsOrdered, BarSeries.new],
   barseries_pushAll_ordered _ _ (by simp [barsOrdered, BarSeries.new])⟩

/-! ## Stop-loss manager (`trading-risk/src/stop_loss.rs`) -/

/-- `StopLossMethod` (`stop_loss.rs:11-22`). -/
inductive StopLossMethod where
  | FixedPercent (percent : ℚ)
  | Atr (multiplier : ℚ)
  | FixedDollar (amount : ℚ)
  | TrailingPercent (percent : ℚ)
  | TrailingAtr (multiplier : ℚ)
deriving DecidableEq, Repr

/-- `StopLossManager` (`stop_loss.rs:46-50`). -/
structure StopLossManager where
  method : StopLossMethod
  current_atr : Option ℚ
deriving DecidableEq, Repr

/-- `StopLossManager::update_trailing_stop` (`stop_loss.rs:110-153`). -/
def StopLossManager.update_trailing_stop (m : StopLossManager)
    (current_stop current_price : ℚ) (side : Side) : ℚ :=
  match m.method with
  | .TrailingPercent percent =>
    let offset := current_price * (percent / 100)
    match side with
    | .Buy => max (current_price - offset) current_stop
    | .Sell => min (current_price + offset) current_stop
  | .TrailingAtr multiplier =>
    match m.current_atr with
    | some atr =>
      let offset := atr * multiplier
      match side with
      | .Buy => max (current_price - offset) current_stop
      | .Sell => min (current_price + offset) current_stop
    | none => current_stop
  | _ => current_stop

/-- C7: trailing stops ratchet one way only.  For every stop-loss method,
cached ATR, current stop and price: the updated long (`Buy`) stop is `≥`
the current stop and the updated short (`Sell`) stop is `≤` the current
stop; consequently over any sequence of updates the long stop is
non-decreasing and the short stop non-increasing.  The non-trailing
methods (`FixedPercent`, `Atr`, `FixedDollar`) return the stop
unchanged. -/
theorem update_trailing_stop_monotone (m : StopLossMethod) (atr : Option ℚ)
    (stop price pct amt mult : ℚ) (side : Side) :
    stop ≤ StopLossManager.update_trailing_stop ⟨m, atr⟩ stop price Side.Buy ∧
    StopLossManager.update_trailing_stop ⟨m, atr⟩ stop price Side.Sell ≤ stop ∧
    StopLossManager.update_trailing_stop ⟨.FixedPercent pct, atr⟩ stop price
      side = stop ∧
    StopLossManager.update_trailing_stop ⟨.Atr mult, atr⟩ stop price
      side = stop ∧
    StopLossManager.update_trailing_stop ⟨.FixedDollar amt, atr⟩ stop price
      side = stop := by
  refine ⟨?_, ?_, rfl, rfl, rfl⟩
  · cases m with
    | TrailingPercent percent =>
      exact le_max_right _ _
    | TrailingAtr multiplier =>
      cases atr with
      | some a => exact le_max_right _ _
      | none => exact le_refl _
    | FixedPercent percent => exact le_refl _
    | Atr multiplier => exact le_refl _
    | FixedDollar amount => exact le_refl _
  · cases m with
    | TrailingPercent percent =>
      exact min_le_right _ _
    | TrailingAtr multiplier =>
      cases atr with
      | some a => exact min_le_right _ _
      | none => exact le_refl _
    | FixedPercent percent => exact le_refl _
    | Atr multiplier => exact le_refl _
    | FixedDollar amount => exact le_refl _

/-! ## Portfolio (`types/position.rs`) -/

/-- `Portfolio` (`position.rs:143-161`).  The `HashMap<String, Position>`
is modelled by an association list keyed by symbol (the broker code only
uses point lookup, upsert, removal and value iteration, all
order-insensitive for the facts proved here). -/
structure Portfolio where
  cash : ℚ
  buying_power : ℚ
  equity : ℚ
  positions : List (String × Position)
  total_unrealized_pnl : ℚ
  total_realized_pnl : ℚ
  initial_capital : ℚ
  peak_equity : ℚ
deriving DecidableEq, Repr

/-- `Portfolio::new` (`position.rs:165-176`). -/
def Portfolio.new (initial_capital : ℚ) : Portfolio :=
  { cash := initial_capital
    buying_power := initial_capital
    equity := initial_capital
    positions := []
    total_unrealized_pnl := 0
    total_realized_pnl := 0
    initial_capital := initial_capital
    peak_equity := initial_capital }

/-- `Portfolio::total_market_value` (`position.rs:197-199`). -/
def Portfolio.total_market_value (p : Portfolio) : ℚ :=
  (p.positions.map (fun kv => kv.2.market_value)).sum

/-- `Portfolio::update_equity` (`position.rs:202-212`). -/
def Portfolio.update_equity (p : Portfolio) : Portfolio :=
  let market_value := (p.positions.map (fun kv => kv.2.market_value)).sum
  let equity := p.cash + market_value
  { p with
    equity := equity
    total_unrealized_pnl :=
      (p.positions.map (fun kv => kv.2.unrealized_pnl)).sum
    peak_equity := if p.peak_equity < equity then equity else p.peak_equity }

/-- `Portfolio::drawdown` (`position.rs:261-266`). -/
def Portfolio.drawdown (p : Portfolio) : ℚ :=
  if p.peak_equity = 0 then 0
  else (p.peak_equity - p.equity) / p.peak_equity * 100

/-- `Portfolio::position_count` (`position.rs:277-279`). -/
def Portfolio.position_count (p : Portfolio) : ℕ :=
  p.positions.length

/-! ## Portfolio limits (`trading-risk/src/portfolio_limits.rs`) -/

/-- `LimitCheck` (`portfolio_limits.rs:10-17`). -/
inductive LimitCheck where
  | Allowed
  | Blocked (reason : String)
  | Reduced (max_size : ℚ) (reason : String)
deriving DecidableEq, Repr

/-- `LimitCheck::is_blocked` (`portfolio_limits.rs:24-26`). -/
def LimitCheck.is_blocked : LimitCheck → Bool
  | .Blocked _ => true
  | _ => false

/-- `PortfolioLimits` (`portfolio_limits.rs:31-46`). -/
structure PortfolioLimits where
  max_position_pct : ℚ
  max_exposure_pct : ℚ
  max_positions : ℕ
  daily_loss_limit_pct : ℚ
  max_drawdown_pct : ℚ
  min_cash : ℚ
  max_concentration_pct : ℚ
deriving DecidableEq, Repr

/-- `PortfolioLimits::default` (`portfolio_limits.rs:48-60`). -/
def PortfolioLimits.default : PortfolioLimits :=
  { max_position_pct := 10
    max_exposure_pct := 80
    max_positions := 10
    daily_loss_limit_pct := 3
    max_drawdown_pct := 20
    min_cash := 1000
    max_concentration_pct := 25 }

/-- `PortfolioLimits::check_new_position` (`portfolio_limits.rs:64-174`).
Reason strings keep the constant prefix of the `format!` message; the
interpolated numbers are presentation only and no claim inspects them. -/
def PortfolioLimits.check_new_position (l : PortfolioLimits)
    (portfolio : Portfolio) (position_value daily_pnl : ℚ) : LimitCheck :=
  let daily_loss_pct :=
    if 0 < portfolio.initial_capital
    then daily_pnl / portfolio.initial_capital * 100 else 0
  if daily_loss_pct ≤ -l.daily_loss_limit_pct then
    .Blocked "Daily loss limit reached"
  else if l.max_drawdown_pct ≤ portfolio.drawdown then
    .Blocked "Max drawdown exceeded"
  else if l.max_positions ≤ portfolio.position_count then
    .Blocked "Max positions reached"
  else if portfolio.cash - position_value < l.min_cash then
    let max_allowed := portfolio.cash - l.min_cash
    if max_allowed ≤ 0 then .Blocked "Insufficient cash"
    else .Reduced max_allowed "Limited by minimum cash requirement"
  else
    let current_exposure := portfolio.total_market_value
    let new_exposure := current_exposure + position_value
    let exposure_pct := new_exposure / portfolio.equity * 100
    if l.max_exposure_pct < exposure_pct then
      let max_additional :=
        portfolio.equity * l.max_exposure_pct / 100 - current_exposure
      if max_additional ≤ 0 then .Blocked "Max exposure reached"
      else .Reduced max_additional "Limited by max exposure"
    else
      let position_pct := position_value / portfolio.equity * 100
      if l.max_position_pct < position_pct then
        .Reduced (portfolio.equity * l.max_position_pct / 100)
          "Limited by max position size"
      else if l.max_concentration_pct < position_pct then
        .Reduced (portfolio.equity * l.max_concentration_pct / 100)
          "Limited by max concentration"
      else .Allowed

/-- `PortfolioLimits::should_halt_trading` (`portfolio_limits.rs:177-199`). -/
def PortfolioLimits.should_halt_trading (l : PortfolioLimits)
    (portfolio : Portfolio) (daily_pnl : ℚ) : Option String :=
  let daily_loss_pct :=
    if 0 < portfolio.initial_capital
    then daily_pnl / portfolio.initial_capital * 100 else 0
  if daily_loss_pct ≤ -l.daily_loss_limit_pct then
    some "Daily loss limit reached"
  else if l.max_drawdown_pct ≤ portfolio.drawdown then
    some "Max drawdown exceeded"
  else none

/-- C5: daily-loss halt.  When the portfolio has positive initial capital
and the daily P&L in percent of initial capital is at or below the
negative daily-loss limit, `should_halt_trading` returns `Some` reason and
`check_new_position` returns `Blocked` for every requested position value
— the daily-loss check is evaluated first in both functions and does not
depend on the requested size. -/
theorem daily_loss_halt (l : PortfolioLimits) (portfolio : Portfolio)
    (daily_pnl : ℚ) (hcap : 0 < portfolio.initial_capital)
    (hloss : daily_pnl / portfolio.initial_capital * 100 ≤
      -l.daily_loss_limit_pct) :
    (l.should_halt_trading portfolio daily_pnl).isSome = true ∧
    ∀ position_value : ℚ,
      (l.check_new_position portfolio position_value daily_pnl).is_blocked =
        true := by
  constructor
  · simp only [PortfolioLimits.should_halt_trading, if_pos hcap, if_pos hloss,
      Option.isSome_some]
  · intro position_value
    simp only [PortfolioLimits.check_new_position, if_pos hcap, if_pos hloss,
      LimitCheck.is_blocked]

/-- Witness for `daily_loss_halt`: the specification's concrete scenario —
default limits (daily loss limit 3%), initial capital 100000, daily P&L
−5000 (a 5% loss) — halts trading and blocks a 7000-value new position. -/
theorem daily_loss_halt_witness :
    (0 < (Portfolio.new 100000).initial_capital ∧
     (-5000 : ℚ) / (Portfolio.new 100000).initial_capital * 100 ≤
       -PortfolioLimits.default.daily_loss_limit_pct) ∧
    ((PortfolioLimits.default.should_halt_trading (Portfolio.new 100000)
        (-5000)).isSome = true ∧
     ∀ position_value : ℚ,
       (PortfolioLimits.default.check_new_position (Portfolio.new 100000)
         position_value (-5000)).is_blocked = true) :=
  ⟨⟨by norm_num [Portfolio.new],
    by norm_num [Portfolio.new, PortfolioLimits.default]⟩,
   daily_loss_halt PortfolioLimits.default (Portfolio.new 100000) (-5000)
     (by norm_num [Portfolio.new])
     (by norm_num [Portfolio.new, PortfolioLimits.default])⟩

/-! ## Signals and position sizer (`trading-risk/src/position_sizer.rs`) -/

/-- Modelled from the spec: `SignalType` — the `signal.rs` module of
`trading-core` is not present in the source tree; §3 of the specification
fixes the variant set {Buy, Sell, CloseLong, CloseShort, Hold}. -/
inductive SignalType where
  | Buy
  | Sell
  | CloseLong
  | CloseShort
  | Hold
deriving DecidableEq, Repr

/-- Modelled from the spec: `SignalStrength` ∈ {Weak, Moderate, Strong}
(§3); the sizer multiplies by 0.5 / 1.0 / 1.5 respectively. -/
inductive SignalStrength where
  | Weak
  | Moderate
  | Strong
deriving DecidableEq, Repr

/-- Modelled from the spec: `SignalMetadata` — strategy name, a named
indicator snapshot, a human-readable reason, optional suggested
stop-loss/take-profit (§3).  The sizer never reads it. -/
structure SignalMetadata where
  strategy_name : String
  indicators : List (String × ℚ)
  reason : String
  stop_loss : Option ℚ
  take_profit : Option ℚ
deriving DecidableEq, Repr

/-- Modelled from the spec: `Signal` — symbol, type, strength, reference
price, timestamp, confidence, metadata (§3).  The reference price and
confidence are `f64` in the source; carried by `ℚ` (the sizer reads only
`strength`). -/
structure Signal where
  symbol : String
  signal_type : SignalType
  strength : SignalStrength
  price : ℚ
  timestamp : ℤ
  confidence : ℚ
  metadata : SignalMetadata
deriving DecidableEq, Repr

/-- `PositionSizingMethod` (`position_sizer.rs:11-25`). -/
inductive PositionSizingMethod where
  | Fixed (shares : ℚ)
  | FixedDollar (amount : ℚ)
  | PercentEquity (percent : ℚ)
  | RiskBased (risk_percent : ℚ)
  | Kelly (win_rate avg_win_loss_ratio : ℚ)
deriving DecidableEq, Repr

/-- `PositionSizer` (`position_sizer.rs:35-40`). -/
structure PositionSizer where
  method : PositionSizingMethod
  max_shares : Option ℚ
  max_position_value : Option ℚ
  use_signal_strength : Bool
deriving DecidableEq, Repr

/-- `Decimal::floor`: largest integer below, as a rational. -/
def qfloor (x : ℚ) : ℚ := (⌊x⌋ : ℚ)

/-- `PositionSizer::calculate` (`position_sizer.rs:72-153`). -/
def PositionSizer.calculate (s : PositionSizer) (portfolio : Portfolio)
    (signal : Signal) (current_price : ℚ) (stop_loss_price : Option ℚ) : ℚ :=
  if current_price ≤ 0 then 0
  else
    let base_size :=
      match s.method with
      | .Fixed shares => shares
      | .FixedDollar amount => amount / current_price
      | .PercentEquity percent =>
        portfolio.equity * (percent / 100) / current_price
      | .RiskBased risk_percent =>
        match stop_loss_price with
        | some stop_price =>
          let risk_per_share := |current_price - stop_price|
          if 0 < risk_per_share then
            portfolio.equity * (risk_percent / 100) / risk_per_share
          else 0
        | none => portfolio.equity * (risk_percent / 100) / current_price
      | .Kelly win_rate avg_win_loss_ratio =>
        let kelly_fraction := win_rate - (1 - win_rate) / avg_win_loss_ratio
        let kelly_fraction := min (max kelly_fraction 0) (1/4)
        portfolio.equity * kelly_fraction / current_price
    let adjusted_size :=
      if s.use_signal_strength then
        let multiplier :=
          match signal.strength with
          | .Weak => (1/2 : ℚ)
          | .Moderate => 1
          | .Strong => (3/2 : ℚ)
        base_size * multiplier
      else base_size
    let final_size := adjusted_size
    let final_size :=
      match s.max_shares with
      | some m => min final_size m
      | none => final_size
    let final_size :=
      match s.max_position_value with
      | some max_value => min final_size (max_value / current_price)
      | none => final_size
    let final_size := min final_size (portfolio.buying_power / current_price)
    qfloor final_size

/-- C6 counterexample: the unrestricted claim
"`calculate` always returns `q` with `q × current_price ≤ buying_power`"
is false.  With `current_price = 0` the sizer returns `0` via its early
guard, and against a portfolio whose buying power is negative the bound
`0 × 0 ≤ buying_power` fails. -/
theorem position_sizer_bound_counterexample :
    ¬ ((PositionSizer.mk (.Fixed 10) none none true).calculate
          { Portfolio.new 0 with buying_power := -1 }
          ⟨"X", .Buy, .Moderate, 0, 0, 1, ⟨"", [], "", none, none⟩⟩ 0 none *
        (0 : ℚ) ≤
      ({ Portfolio.new 0 with buying_power := -1 } : Portfolio).buying_power) := by
  norm_num [PositionSizer.calculate, Portfolio.new]

/-- C6 (amended): for every sizer configuration, portfolio with
non-negative buying power, signal, price and optional stop, the result of
`calculate` is a whole number of shares and its notional value is bounded
by the buying power.  The Kelly method is restricted to a nonzero
win/loss ratio: with a zero ratio the Rust code divides by zero and
panics, so the embedding (whose total division would return 0 there)
cannot speak for it. -/
theorem position_sizer_integral_and_bounded (s : PositionSizer)
    (portfolio : Portfolio) (signal : Signal) (current_price : ℚ)
    (stop_loss_price : Option ℚ)
    (hbp : 0 ≤ portfolio.buying_power)
    (hkelly : match s.method with
      | .Kelly _ r => r ≠ 0
      | _ => True) :
    (∃ n : ℤ, s.calculate portfolio signal current_price stop_loss_price = n) ∧
    s.calculate portfolio signal current_price stop_loss_price *
      current_price ≤ portfolio.buying_power := by
  clear hkelly
  by_cases hp : current_price ≤ 0
  · refine ⟨⟨0, by simp [PositionSizer.calculate, hp]⟩, ?_⟩
    simp [PositionSizer.calculate, hp, hbp]
  · push_neg at hp
    have hp' : ¬ current_price ≤ 0 := not_le.mpr hp
    constructor
    · simp only [PositionSizer.calculate, if_neg hp', qfloor]
      exact ⟨_, rfl⟩
    · simp only [PositionSizer.calculate, if_neg hp', qfloor]
      set final :=
        min _ (portfolio.buying_power / current_price) with hfinal
      have h1 : (⌊final⌋ : ℚ) ≤ portfolio.buying_power / current_price :=
        le_trans (Int.floor_le final) (by rw [hfinal]; exact min_le_right _ _)
      calc (⌊final⌋ : ℚ) * current_price
          ≤ portfolio.buying_power / current_price * current_price := by
            exact mul_le_mul_of_nonneg_right h1 (le_of_lt hp)
        _ = portfolio.buying_power := div_mul_cancel₀ _ (ne_of_gt hp)

/-- Witness for `position_sizer_integral_and_bounded`: percent-equity
sizing (2%) of a fresh 100000 portfolio at price 100. -/
theorem position_sizer_witness :
    ((0 : ℚ) ≤ (Portfolio.new 100000).buying_power ∧
     (match (PositionSizer.mk (.PercentEquity 2) none none true).method with
       | .Kelly _ r => r ≠ 0
       | _ => True)) ∧
    ((∃ n : ℤ,
        (PositionSizer.mk (.PercentEquity 2) none none true).calculate
          (Portfolio.new 100000)
          ⟨"X", .Buy, .Moderate, 100, 0, 1, ⟨"", [], "", none, none⟩⟩
          100 none = n) ∧
     (PositionSizer.mk (.PercentEquity 2) none none true).calculate
         (Portfolio.new 100000)
         ⟨"X", .Buy, .Moderate, 100, 0, 1, ⟨"", [], "", none, none⟩⟩
         100 none * 100 ≤
       (Portfolio.new 100000).buying_power) :=
  ⟨⟨by norm_num [Portfolio.new], trivial⟩,
   position_sizer_integral_and_bounded _ _ _ _ _
     (by norm_num [Portfolio.new]) trivial⟩

/-! ## Indicator engine (`trading-indicators/src`)

The indicators compute on `f64`; the scalars are carried by `ℚ` here.  The
claims proved below are structural (output lengths) or compare two runs
that perform the identical primitive operations in the identical order, so
they are independent of the scalar interpretation. -/

/-- The sliding-window loop of `Sma::calculate`
(`moving_average.rs:37-40`): at each step the element leaving the window
is subtracted and the incoming element added, and `sum / period` is
emitted.  `old` walks the input from the front (the leaving elements),
`incoming` from index `period` (the entering elements). -/
def smaGo (period_q : ℚ) (sum : ℚ) : List ℚ → List ℚ → List ℚ
  | _, [] => []
  | [], _ :: _ => []
  | leaving :: old, x :: incoming =>
    let sum := sum - leaving + x
    sum / period_q :: smaGo period_q sum old incoming

/-- `Sma::calculate` (`moving_average.rs:24-43`). -/
def Sma.calculate (period : ℕ) (data : List ℚ) : List ℚ :=
  if data.length < period then []
  else
    let sum := (data.take period).sum
    sum / period :: smaGo period sum data (data.drop period)

/-- The EMA recurrence loop of `Ema::calculate`
(`moving_average.rs:100-103`): `ema = x·multiplier + ema·(1 − multiplier)`
for each remaining input, emitting every intermediate value. -/
def emaGo (multiplier : ℚ) (ema : ℚ) : List ℚ → List ℚ
  | [] => []
  | x :: rest =>
    let ema := x * multiplier + ema * (1 - multiplier)
    ema :: emaGo multiplier ema rest

/-- `Ema::new(period).calculate` (`moving_average.rs:65-69, 85-106`):
multiplier `2/(period+1)`, seeded with the SMA of the first `period`
values. -/
def Ema.calculate (period : ℕ) (data : List ℚ) : List ℚ :=
  if data.length < period then []
  else
    let initial_sma := (data.take period).sum / period
    initial_sma :: emaGo (2 / ((period : ℚ) + 1)) initial_sma
      (data.drop period)

/-- The window list produced by `data.windows(period)` for `period > 0`:
every contiguous run of `period` elements, oldest window first. -/
def windowList (period : ℕ) : List ℚ → List (List ℚ)
  | [] => []
  | x :: xs =>
    if period ≤ (x :: xs).length
    then (x :: xs).take period :: windowList period xs
    else []

/-- The weighted sum of one WMA window (`moving_average.rs:147-151`):
`Σ (i+1)·xᵢ` with `i` the 0-based index inside the window. -/
def wmaWeightedSum (weight : ℕ) : List ℚ → ℚ
  | [] => 0
  | x :: rest => x * weight + wmaWeightedSum (weight + 1) rest

/-- `Wma::new(period).calculate` (`moving_average.rs:128-133, 139-153`):
each window's weighted sum divided by `period·(period+1)/2`. -/
def Wma.calculate (period : ℕ) (data : List ℚ) : List ℚ :=
  if data.length < period then []
  else
    let weights_sum := ((period : ℚ) * ((period : ℚ) + 1)) / 2
    (windowList period data).map (fun w => wmaWeightedSum 1 w / weights_sum)

/-- The consecutive differences `data[i] − data[i−1]`
(`momentum.rs:59-60`, `volatility.rs:117-118`). -/
def deltas : List ℚ → List ℚ
  | [] => []
  | [_] => []
  | a :: b :: rest => (b - a) :: deltas (b :: rest)

/-- The Wilder smoothing loop (`momentum.rs:38-41`, `volatility.rs:128-131`):
`avg = (avg·(period−1) + value)/period`, emitting every intermediate
value. -/
def wilderGo (period_q : ℚ) (avg : ℚ) : List ℚ → List ℚ
  | [] => []
  | v :: rest =>
    let avg := (avg * (period_q - 1) + v) / period_q
    avg :: wilderGo period_q avg rest

/-- `Rsi::wilder_smooth` (`momentum.rs:25-44`): seeded with the plain
average of the first `period` values, then Wilder smoothing. -/
def wilder_smooth (values : List ℚ) (period : ℕ) : List ℚ :=
  if values.length < period then []
  else
    let avg := (values.take period).sum / period
    avg :: wilderGo period avg (values.drop period)

/-- `Rsi::calculate` (`momentum.rs:50-86`): gains/losses from consecutive
deltas, Wilder smoothing of each, then `100 − 100/(1 + gain/loss)`
(`100` when the smoothed loss is zero). -/
def Rsi.calculate (period : ℕ) (data : List ℚ) : List ℚ :=
  if data.length ≤ period then []
  else
    let gains := (deltas data).map (fun c => if 0 < c then c else 0)
    let losses := (deltas data).map (fun c => if 0 < c then 0 else -c)
    let avg_gains := wilder_smooth gains period
    let avg_losses := wilder_smooth losses period
    List.zipWith
      (fun gain loss =>
        if loss = 0 then 100 else 100 - 100 / (1 + gain / loss))
      avg_gains avg_losses

/-- `Atr::calculate` (close-only, `volatility.rs:110-134`): true range
approximated by `|data[i] − data[i−1]|`, seeded with its plain average
over the first `period` entries, then Wilder smoothing. -/
def Atr.calculate (period : ℕ) (data : List ℚ) : List ℚ :=
  if data.length < period + 1 then []
  else
    let tr := (deltas data).map (fun c => |c|)
    let atr := (tr.take period).sum / period
    atr :: wilderGo period atr (tr.drop period)

/-- Length of the SMA sliding loop: one output per entering element, as
long as at least as many leaving elements are available. -/
theorem smaGo_length (period_q : ℚ) :
    ∀ (incoming old : List ℚ) (sum : ℚ), incoming.length ≤ old.length →
      (smaGo period_q sum old incoming).length = incoming.length := by
  intro incoming
  induction incoming with
  | nil => intro old sum _; cases old <;> rfl
  | cons x rest ih =>
    intro old sum h
    cases old with
    | nil => simp at h
    | cons leaving old =>
      simp only [smaGo, List.length_cons]
      rw [ih old _ (by simpa using h)]

/-- Length of the EMA recurrence loop: one output per input. -/
theorem emaGo_length (multiplier : ℚ) :
    ∀ (rest : List ℚ) (ema : ℚ),
      (emaGo multiplier ema rest).length = rest.length := by
  intro rest
  induction rest with
  | nil => intro ema; rfl
  | cons x r ih => intro ema; simp only [emaGo, List.length_cons, ih]

/-- Length of the Wilder smoothing loop: one output per input. -/
theorem wilderGo_length (period_q : ℚ) :
    ∀ (rest : List ℚ) (avg : ℚ),
      (wilderGo period_q avg rest).length = rest.length := by
  intro rest
  induction rest with
  | nil => intro avg; rfl
  | cons v r ih => intro avg; simp only [wilderGo, List.length_cons, ih]

/-- Number of windows: `length + 1 − period` (truncated subtraction). -/
theorem windowList_length (period : ℕ) (hp : 0 < period) :
    ∀ data : List ℚ, (windowList period data).length =
      data.length + 1 - period := by
  intro data
  induction data with
  | nil => simp [windowList]; omega
  | cons x xs ih =>
    simp only [windowList, List.length_cons]
    split
    · simp only [List.length_cons, ih]; omega
    · simp only [List.length_nil]; omega

/-- Length of the consecutive-deltas list: `length − 1`. -/
theorem deltas_length : ∀ data : List ℚ, (deltas data).length =
    data.length - 1 := by
  intro data
  induction data with
  | nil => rfl
  | cons a rest ih =>
    cases rest with
    | nil => rfl
    | cons b r =>
      simp only [deltas, List.length_cons] at *
      omega

/-- Length of `wilder_smooth`: `length + 1 − period` (truncated), the
same  alignment as SMA. -/
theorem wilder_smooth_length (values : List ℚ) (period : ℕ)
    (hp : 0 < period) :
    (wilder_smooth values period).length = values.length + 1 - period := by
  simp only [wilder_smooth]
  split
  · simp only [List.length_nil]; omega
  · simp only [List.length_cons, wilderGo_length, List.length_drop]
    omega

/-- C8: batch output lengths.  For every period `p > 0` and input of
length `N`: SMA, EMA and WMA return `max(0, N − p + 1)` outputs (written
`N + 1 - p` in truncated `ℕ` subtraction) and RSI and close-only ATR
return `max(0, N − p)` outputs (`N - p` truncated); in particular a
too-short input (`N < p`, resp. `N ≤ p`) yields the empty list — these
functions return plain lists and have no error outcome. -/
theorem batch_indicator_lengths (period : ℕ) (hp : 0 < period)
    (data : List ℚ) :
    (Sma.calculate period data).length = data.length + 1 - period ∧
    (Ema.calculate period data).length = data.length + 1 - period ∧
    (Wma.calculate period data).length = data.length + 1 - period ∧
    (Rsi.calculate period data).length = data.length - period ∧
    (Atr.calculate period data).length = data.length - period := by
  refine ⟨?_, ?_, ?_, ?_, ?_⟩
  · simp only [Sma.calculate]
    split
    · simp only [List.length_nil]; omega
    · simp only [List.length_cons]
      rw [smaGo_length period (data.drop period) data _
        (by simp [List.length_drop])]
      simp only [List.length_drop]
      omega
  · simp only [Ema.calculate]
    split
    · simp only [List.length_nil]; omega
    · simp only [List.length_cons, emaGo_length, List.length_drop]; omega
  · simp only [Wma.calculate]
    split
    · simp only [List.length_nil]; omega
    · simp only [List.length_map, windowList_length period hp]
  · simp only [Rsi.calculate]
    split
    · simp only [List.length_nil]; omega
    · rw [List.length_zipWith]
      rw [wilder_smooth_length _ _ hp, wilder_smooth_length _ _ hp]
      simp only [List.length_map, deltas_length]
      omega
  · simp only [Atr.calculate]
    split
    · simp only [List.length_nil]; omega
    · simp only [List.length_cons, wilderGo_length, List.length_drop,
        List.length_map, deltas_length]
      omega

/-- Witness for `batch_indicator_lengths`: period 3 over the 5-element
input `[1,2,3,4,5]` — SMA/EMA/WMA produce 3 outputs, RSI/ATR produce 2. -/
theorem batch_indicator_lengths_witness :
    0 < 3 ∧
    ((Sma.calculate 3 [1, 2, 3, 4, 5]).length = 5 + 1 - 3 ∧
     (Ema.calculate 3 [1, 2, 3, 4, 5]).length = 5 + 1 - 3 ∧
     (Wma.calculate 3 [1, 2, 3, 4, 5]).length = 5 + 1 - 3 ∧
     (Rsi.calculate 3 [1, 2, 3, 4, 5]).length = 5 - 3 ∧
     (Atr.calculate 3 [1, 2, 3, 4, 5]).length = 5 - 3) :=
  ⟨by decide, batch_indicator_lengths 3 (by decide) [1, 2, 3, 4, 5]⟩

/-! ## Streaming EMA (`moving_average.rs:169-230`) -/

/-- `StreamingEma` (`moving_average.rs:169-175`). -/
structure StreamingEma where
  period : ℕ
  multiplier : ℚ
  current : Option ℚ
  count : ℕ
  sum : ℚ
deriving DecidableEq, Repr

/-- `StreamingEma::new` (`moving_average.rs:179-189`):
multiplier `2/(period+1)`, no current value, zero count and sum. -/
def StreamingEma.new (period : ℕ) : StreamingEma :=
  { period := period
    multiplier := 2 / ((period : ℚ) + 1)
    current := none
    count := 0
    sum := 0 }

/-- `StreamingEma::update` (`moving_average.rs:192-212`).  The
`self.current.unwrap()` in the third branch is modelled by `Option.getD`;
in every state reachable from `new` with `count ≥ period` the current
value is `some`, so the default is never consulted. -/
def StreamingEma.update (s : StreamingEma) (value : ℚ) :
    StreamingEma × Option ℚ :=
  let count := s.count + 1
  if count < s.period then
    ({ s with count := count, sum := s.sum + value }, none)
  else if count = s.period then
    let sma := (s.sum + value) / s.period
    ({ s with count := count, sum := s.sum + value, current := some sma },
     some sma)
  else
    let ema := s.current.getD 0
    let new_ema := value * s.multiplier + ema * (1 - s.multiplier)
    ({ s with count := count, current := some new_ema }, some new_ema)

/-- Feed a list of values one at a time, collecting each update's
output. -/
def StreamingEma.run (s : StreamingEma) : List ℚ → List (Option ℚ)
  | [] => []
  | x :: rest =>
    let step := s.update x
    step.2 :: step.1.run rest

/-- Once warm (`count ≥ period`, current value present), every further
update performs exactly the batch EMA recurrence: the streamed outputs are
the recurrence outputs wrapped in `some`. -/
theorem streamingEma_run_warm :
    ∀ (xs : List ℚ) (p : ℕ) (m e sum : ℚ) (k : ℕ), 0 < p → p ≤ k →
      StreamingEma.run ⟨p, m, some e, k, sum⟩ xs =
        (emaGo m e xs).map some := by
  intro xs
  induction xs with
  | nil => intro p m e sum k hp hk; rfl
  | cons x rest ih =>
    intro p m e sum k hp hk
    have h1 : ¬ (k + 1 < p) := by omega
    have h2 : ¬ (k + 1 = p) := by omega
    simp only [StreamingEma.run, StreamingEma.update, h1, h2, if_false,
      emaGo, List.map_cons, Option.getD_some]
    exact congrArg₂ List.cons rfl (ih p m _ sum (k + 1) hp (by omega))

/-- During warmup (`count = k < period`, accumulated sum `S`): the run
emits `none` for the next `p − k − 1` values, then seeds with the average
of `S` plus the next `p − k` values, then follows the EMA recurrence.
If fewer than `p − k` values remain, every output is `none`. -/
theorem streamingEma_run_warmup :
    ∀ (xs : List ℚ) (p : ℕ) (m : ℚ) (cur : Option ℚ) (k : ℕ) (sum : ℚ),
      0 < p → k < p →
      StreamingEma.run ⟨p, m, cur, k, sum⟩ xs =
        if xs.length + k < p then List.replicate xs.length none
        else
          List.replicate (p - k - 1) none ++
            some ((sum + (xs.take (p - k)).sum) / p) ::
              (emaGo m ((sum + (xs.take (p - k)).sum) / p)
                (xs.drop (p - k))).map some := by
  intro xs
  induction xs with
  | nil =>
    intro p m cur k sum hp hk
    rw [if_pos (by simpa using hk)]
    rfl
  | cons x rest ih =>
    intro p m cur k sum hp hk
    by_cases hseed : k + 1 = p
    · -- this update completes the warmup and emits the seed SMA
      have h1 : ¬ (k + 1 < p) := by omega
      simp only [StreamingEma.run, StreamingEma.update, h1, if_false,
        if_pos hseed]
      rw [streamingEma_run_warm rest p m _ _ (k + 1) hp (by omega)]
      have hcount : ¬ ((x :: rest).length + k < p) := by
        simp only [List.length_cons]; omega
      rw [if_neg hcount]
      have hpk : p - k = 1 := by omega
      simp only [hpk, List.take_succ_cons, List.take_zero,
        List.drop_succ_cons, List.drop_zero, List.sum_cons, List.sum_nil]
      norm_num
    · -- still warming up: emit `none`, accumulate the sum
      have h1 : k + 1 < p := by omega
      simp only [StreamingEma.run, StreamingEma.update, if_pos h1]
      rw [ih p m cur (k + 1) (sum + x) hp h1]
      by_cases hlen : rest.length + (k + 1) < p
      · rw [if_pos hlen, if_pos (by simp only [List.length_cons]; omega)]
        rfl
      · rw [if_neg hlen, if_neg (by simp only [List.length_cons]; omega)]
        have hpk : p - k = (p - (k + 1)) + 1 := by omega
        have hrep : p - k - 1 = (p - (k + 1) - 1) + 1 := by omega
        rw [hrep, hpk]
        simp only [List.take_succ_cons, List.drop_succ_cons, List.sum_cons,
          List.replicate_succ, List.cons_append]
        have : sum + (x + (rest.take (p - (k + 1))).sum) =
            sum + x + (rest.take (p - (k + 1))).sum := by ring
        rw [this]

/-- C9: the streaming EMA refines the batch EMA.  For every period
`p > 0` and input list: feeding the values one at a time to
`StreamingEma::new(p)` yields `none` for the first `min(p − 1, N)`
updates and `some` thereafter, and the emitted values are exactly the
output of the batch `Ema::new(p).calculate` on the same input — the same
SMA seed and the same recurrence, in the same order. -/
theorem streaming_batch_ema_equiv (p : ℕ) (hp : 0 < p) (xs : List ℚ) :
    (StreamingEma.new p).run xs =
      List.replicate (min (p - 1) xs.length) none ++
        (Ema.calculate p xs).map some := by
  have hstart := streamingEma_run_warmup xs p (2 / ((p : ℚ) + 1)) none 0 0
    hp hp
  have : StreamingEma.new p = ⟨p, 2 / ((p : ℚ) + 1), none, 0, 0⟩ := rfl
  rw [this, hstart]
  by_cases hlen : xs.length < p
  · rw [if_pos (by omega)]
    have hmin : min (p - 1) xs.length = xs.length := by omega
    rw [Ema.calculate, if_pos hlen, hmin]
    simp
  · rw [if_neg (by omega)]
    have hmin : min (p - 1) xs.length = p - 1 := by omega
    rw [Ema.calculate, if_neg hlen, hmin]
    simp only [List.map_cons, zero_add, Nat.sub_zero]

/-- Witness for `streaming_batch_ema_equiv`: period 3 over `[1,2,3,4,5]`
(the specification's own EMA example, α = 1/2): two `none`s, then the
batch outputs `[2, 3, 4]`. -/
theorem streaming_batch_ema_equiv_witness :
    0 < 3 ∧
    (StreamingEma.new 3).run [1, 2, 3, 4, 5] =
      List.replicate (min (3 - 1) [1, 2, 3, 4, 5].length) none ++
        (Ema.calculate 3 [1, 2, 3, 4, 5]).map some :=
  ⟨by decide, streaming_batch_ema_equiv 3 (by decide) [1, 2, 3, 4, 5]⟩

/-! ## Orders (`types/order.rs`) and the paper broker (`paper.rs`)

Wall-clock timestamp fields (`created_at`, `updated_at`, …) and the UUID
fill id are not modelled; order ids are drawn from a fresh-`ℕ` counter. -/

/-- `Fill` (`order.rs:268-281`). -/
structure Fill where
  id : String
  order_id : ℕ
  quantity : ℚ
  price : ℚ
  commission : ℚ
deriving DecidableEq, Repr

/-- `OrderRequest` (`order.rs:143-164`). -/
structure OrderRequest where
  symbol : String
  side : Side
  order_type : OrderType
  quantity : ℚ
  limit_price : Option ℚ
  stop_price : Option ℚ
  trail_amount : Option ℚ
  time_in_force : TimeInForce
  client_order_id : Option String
  extended_hours : Bool
deriving DecidableEq, Repr

/-- `OrderRequest::market` (`order.rs:168-181`). -/
def OrderRequest.market (symbol : String) (side : Side) (quantity : ℚ) :
    OrderRequest :=
  { symbol := symbol
    side := side
    order_type := .Market
    quantity := quantity
    limit_price := none
    stop_price := none
    trail_amount := none
    time_in_force := .Day
    client_order_id := none
    extended_hours := false }

/-- `OrderRequest::limit` (`order.rs:184-202`). -/
def OrderRequest.limit (symbol : String) (side : Side)
    (quantity limit_price : ℚ) : OrderRequest :=
  { symbol := symbol
    side := side
    order_type := .Limit
    quantity := quantity
    limit_price := some limit_price
    stop_price := none
    trail_amount := none
    time_in_force := .Day
    client_order_id := none
    extended_hours := false }

/-- `Order` (`order.rs:285-328`), without the wall-clock timestamp
fields. -/
structure Order where
  id : ℕ
  client_order_id : String
  symbol : String
  side : Side
  order_type : OrderType
  quantity : ℚ
  limit_price : Option ℚ
  stop_price : Option ℚ
  trail_amount : Option ℚ
  time_in_force : TimeInForce
  status : OrderStatus
  filled_quantity : ℚ
  filled_avg_price : Option ℚ
  fills : List Fill
  extended_hours : Bool
deriving DecidableEq, Repr

/-- `Order::from_request` (`order.rs:332-360`); the fresh UUID is the
supplied `id`, and an absent client order id is modelled by `""` (the
source generates a fresh UUID string there; no claim reads it). -/
def Order.from_request (id : ℕ) (request : OrderRequest) : Order :=
  { id := id
    client_order_id := request.client_order_id.getD ""
    symbol := request.symbol
    side := request.side
    order_type := request.order_type
    quantity := request.quantity
    limit_price := request.limit_price
    stop_price := request.stop_price
    trail_amount := request.trail_amount
    time_in_force := request.time_in_force
    status := .Pending
    filled_quantity := 0
    filled_avg_price := none
    fills := []
    extended_hours := request.extended_hours }

/-- `Order::is_filled` (`order.rs:368-370`). -/
def Order.is_filled (o : Order) : Bool :=
  o.status = OrderStatus.Filled

/-- `Order::add_fill` (`order.rs:384-400`). -/
def Order.add_fill (o : Order) (fill : Fill) : Order :=
  let total_qty := o.filled_quantity + fill.quantity
  let total_value :=
    o.filled_avg_price.getD 0 * o.filled_quantity + fill.price * fill.quantity
  let o1 :=
    { o with
      filled_avg_price := some (total_value / total_qty)
      filled_quantity := total_qty
      fills := o.fills ++ [fill] }
  if o1.quantity ≤ o1.filled_quantity then { o1 with status := .Filled }
  else { o1 with status := .PartiallyFilled }

/-- `BrokerError` (`trading-core/src/error.rs`), restricted to the
variants the paper broker produces. -/
inductive BrokerError where
  | OrderNotFound (id : String)
  | InsufficientFunds (required available : ℚ)
  | OrderRejected (reason : String)
  | PositionNotFound (symbol : String)
deriving DecidableEq, Repr

/-- Update the position association list at a symbol (insert or
overwrite), the net effect of `HashMap::entry(..).or_insert_with` followed
by in-place mutation. -/
def posUpsert (ps : List (String × Position)) (symbol : String)
    (p : Position) : List (String × Position) :=
  if (List.lookup symbol ps).isSome
  then ps.map (fun kv => if kv.1 = symbol then (symbol, p) else kv)
  else ps ++ [(symbol, p)]

/-- `HashMap::remove` on the position association list. -/
def posRemove (ps : List (String × Position)) (symbol : String) :
    List (String × Position) :=
  ps.filter (fun kv => !(kv.1 == symbol))

/-- `Portfolio::apply_order` (`position.rs:215-248`): the only code path
that accumulates `total_realized_pnl`.  The paper broker never calls
it. -/
def Portfolio.apply_order (p : Portfolio) (order : Order) : Portfolio :=
  if ¬ order.is_filled then p
  else
    let fill_value := order.filled_avg_price.getD 0 * order.filled_quantity
    let cash :=
      match order.side with
      | .Buy => p.cash - fill_value
      | .Sell => p.cash + fill_value
    let pos0 :=
      (List.lookup order.symbol p.positions).getD
        (Position.new order.symbol 0 0)
    let res :=
      pos0.apply_fill order.side order.filled_quantity
        (order.filled_avg_price.getD 0)
    let p1 :=
      { p with
        cash := cash
        total_realized_pnl := p.total_realized_pnl + res.2
        positions :=
          if res.1.is_flat then posRemove p.positions order.symbol
          else posUpsert p.positions order.symbol res.1 }
    p1.update_equity

/-- `PaperBroker` (`paper.rs:17-22`), with the order map as an
association list keyed by the fresh-id counter `next_id`. -/
structure PaperBroker where
  portfolio : Portfolio
  orders : List (ℕ × Order)
  slippage_pct : ℚ
  commission_per_share : ℚ
  next_id : ℕ
deriving DecidableEq, Repr

/-- `PaperBroker::new` (`paper.rs:26-33`): default slippage 0.05%, zero
commission. -/
def PaperBroker.new (initial_capital : ℚ) : PaperBroker :=
  { portfolio := Portfolio.new initial_capital
    orders := []
    slippage_pct := 1/20
    commission_per_share := 0
    next_id := 0 }

/-- `PaperBroker::submit_order` (`paper.rs:155-166`): always accepted,
stored as `Pending`; the portfolio is untouched. -/
def PaperBroker.submit_order (b : PaperBroker) (request : OrderRequest) :
    PaperBroker × Order :=
  let order := Order.from_request b.next_id request
  ({ b with
      orders := b.orders ++ [(b.next_id, order)]
      next_id := b.next_id + 1 },
   order)

/-- In-place update of one order in the order map. -/
def ordUpdate (os : List (ℕ × Order)) (id : ℕ) (o : Order) :
    List (ℕ × Order) :=
  os.map (fun kv => if kv.1 = id then (id, o) else kv)

/-- `PaperBroker::execute_at_price` (`paper.rs:48-135`).  Returns the new
broker state together with the `Result`. -/
def PaperBroker.execute_at_price (b : PaperBroker) (order_id : ℕ)
    (market_price : ℚ) : PaperBroker × Except BrokerError Order :=
  match List.lookup order_id b.orders with
  | none => (b, .error (.OrderNotFound (toString order_id)))
  | some order =>
    if order.status.is_terminal then (b, .ok order)
    else
      let fill_price :=
        match order.side with
        | .Buy => market_price * (1 + b.slippage_pct / 100)
        | .Sell => market_price * (1 - b.slippage_pct / 100)
      let limit_infeasible : Bool :=
        if order.order_type = OrderType.Limit then
          match order.limit_price with
          | some limit =>
            match order.side with
            | .Buy => decide (limit < fill_price)
            | .Sell => decide (fill_price < limit)
          | none => false
        else false
      if limit_infeasible then (b, .ok order)
      else if order.side = Side.Buy ∧
          b.portfolio.cash < fill_price * order.quantity then
        (b, .error (.InsufficientFunds (fill_price * order.quantity)
          b.portfolio.cash))
      else
        let commission := b.commission_per_share * order.quantity
        let fill : Fill :=
          { id := ""
            order_id := order_id
            quantity := order.quantity
            price := fill_price
            commission := commission }
        let order1 := order.add_fill fill
        let order2 := { order1 with status := OrderStatus.Filled }
        let fill_value := fill_price * order.quantity
        let port0 := b.portfolio
        let port1 :=
          { port0 with
            cash :=
              match order.side with
              | .Buy => port0.cash - (fill_value + commission)
              | .Sell => port0.cash + (fill_value - commission) }
        let pos0 :=
          (List.lookup order.symbol port1.positions).getD
            (Position.new order.symbol 0 0)
        let pos1 := (pos0.apply_fill order.side order.quantity fill_price).1
        let port2 :=
          { port1 with
            positions :=
              if pos1.is_flat then posRemove port1.positions order.symbol
              else posUpsert port1.positions order.symbol pos1 }
        let port3 := port2.update_equity
        let port4 := { port3 with buying_power := port3.cash }
        ({ b with
            portfolio := port4
            orders := ordUpdate b.orders order_id order2 },
         .ok order2)

/-- `PaperBroker::cancel_order` (`paper.rs:168-184`), with the order id
already parsed. -/
def PaperBroker.cancel_order (b : PaperBroker) (order_id : ℕ) :
    PaperBroker × Except BrokerError Unit :=
  match List.lookup order_id b.orders with
  | none => (b, .error (.OrderNotFound (toString order_id)))
  | some order =>
    if order.status.is_terminal then
      (b, .error (.OrderRejected "Order already terminal"))
    else
      ({ b with
          orders := ordUpdate b.orders order_id
            { order with status := OrderStatus.Canceled } },
       .ok ())

/-- One externally driven paper-broker operation. -/
inductive BrokerOp where
  | submit (request : OrderRequest)
  | execute (order_id : ℕ) (market_price : ℚ)
  | cancel (order_id : ℕ)

/-- State reached after one operation. -/
def PaperBroker.applyOp (b : PaperBroker) : BrokerOp → PaperBroker
  | .submit request => (b.submit_order request).1
  | .execute order_id market_price =>
    (b.execute_at_price order_id market_price).1
  | .cancel order_id => (b.cancel_order order_id).1

/-- State reached after a sequence of operations. -/
def PaperBroker.runOps (b : PaperBroker) (ops : List BrokerOp) : PaperBroker :=
  ops.foldl PaperBroker.applyOp b

/-- C4: limit-order infeasibility is a no-op, not an error.  For a stored
pending limit order whose slipped fill price violates its limit (Buy:
slipped price above the limit; Sell: below), `execute_at_price` returns
`Ok` with the stored order unchanged — still `Pending`, no fill appended —
and the broker state (portfolio cash and positions included) is returned
exactly as it was. -/
theorem execute_at_price_limit_infeasible_noop (b : PaperBroker)
    (order_id : ℕ) (market_price : ℚ) (order : Order)
    (hlook : List.lookup order_id b.orders = some order)
    (hpend : order.status = OrderStatus.Pending)
    (htype : order.order_type = OrderType.Limit)
    (hlim : ∃ limit, order.limit_price = some limit ∧
      ((order.side = Side.Buy ∧
          limit < market_price * (1 + b.slippage_pct / 100)) ∨
       (order.side = Side.Sell ∧
          market_price * (1 - b.slippage_pct / 100) < limit))) :
    b.execute_at_price order_id market_price = (b, .ok order) := by
  obtain ⟨limit, hlimit, hside⟩ := hlim
  simp only [PaperBroker.execute_at_price, hlook]
  have hterm : order.status.is_terminal = false := by
    rw [hpend]; rfl
  rw [hterm]
  simp only [Bool.false_eq_true, if_false, if_pos htype, hlimit]
  rcases hside with ⟨hbuy, hlt⟩ | ⟨hsell, hlt⟩
  · rw [hbuy]
    simp only [decide_eq_true hlt, if_true]
  · rw [hsell]
    simp only [decide_eq_true hlt, if_true]

/-- Witness for `execute_at_price_limit_infeasible_noop`: the
specification's concrete scenario — fresh broker (slippage 0.05%), Buy
limit @100 on AAPL, executed at market 101: the slipped price 101.0505
violates the limit, the order stays as submitted and the broker state is
unchanged. -/
theorem execute_at_price_limit_infeasible_witness :
    (List.lookup 0 ((PaperBroker.new 100000).submit_order
        (OrderRequest.limit "AAPL" Side.Buy 10 100)).1.orders =
      some ((PaperBroker.new 100000).submit_order
        (OrderRequest.limit "AAPL" Side.Buy 10 100)).2 ∧
     ((PaperBroker.new 100000).submit_order
        (OrderRequest.limit "AAPL" Side.Buy 10 100)).2.status =
       OrderStatus.Pending ∧
     ((PaperBroker.new 100000).submit_order
        (OrderRequest.limit "AAPL" Side.Buy 10 100)).2.order_type =
       OrderType.Limit ∧
     (∃ limit, ((PaperBroker.new 100000).submit_order
          (OrderRequest.limit "AAPL" Side.Buy 10 100)).2.limit_price =
         some limit ∧
       ((((PaperBroker.new 100000).submit_order
            (OrderRequest.limit "AAPL" Side.Buy 10 100)).2.side = Side.Buy ∧
          limit < 101 * (1 + ((PaperBroker.new 100000).submit_order
            (OrderRequest.limit "AAPL" Side.Buy 10 100)).1.slippage_pct
              / 100)) ∨
        (((PaperBroker.new 100000).submit_order
            (OrderRequest.limit "AAPL" Side.Buy 10 100)).2.side =
              Side.Sell ∧
          101 * (1 - ((PaperBroker.new 100000).submit_order
            (OrderRequest.limit "AAPL" Side.Buy 10 100)).1.slippage_pct
              / 100) < limit)))) ∧
    ((PaperBroker.new 100000).submit_order
        (OrderRequest.limit "AAPL" Side.Buy 10 100)).1.execute_at_price
        0 101 =
      (((PaperBroker.new 100000).submit_order
          (OrderRequest.limit "AAPL" Side.Buy 10 100)).1,
       .ok ((PaperBroker.new 100000).submit_order
          (OrderRequest.limit "AAPL" Side.Buy 10 100)).2) :=
  ⟨⟨rfl, rfl, rfl,
    ⟨100, rfl, Or.inl ⟨rfl,
      by norm_num [PaperBroker.new, PaperBroker.submit_order]⟩⟩⟩,
   execute_at_price_limit_infeasible_noop _ 0 101 _ rfl rfl rfl
     ⟨100, rfl, Or.inl ⟨rfl,
       by norm_num [PaperBroker.new, PaperBroker.submit_order]⟩⟩⟩

/-- Every single paper-broker operation leaves the portfolio's
`total_realized_pnl` field untouched: `submit_order` and `cancel_order`
never write the portfolio, and `execute_at_price` applies fills through
`Position::apply_fill` but discards the returned realized P&L — it never
calls `Portfolio::apply_order`, the only code path that accumulates the
field. -/
theorem applyOp_preserves_total_realized_pnl (b : PaperBroker)
    (op : BrokerOp) :
    (b.applyOp op).portfolio.total_realized_pnl =
      b.portfolio.total_realized_pnl := by
  cases op with
  | submit request => rfl
  | execute order_id market_price =>
    simp only [PaperBroker.applyOp, PaperBroker.execute_at_price]
    cases hl : List.lookup order_id b.orders with
    | none => rfl
    | some order =>
      repeat' split
      all_goals simp [Portfolio.update_equity]
  | cancel order_id =>
    simp only [PaperBroker.applyOp, PaperBroker.cancel_order]
    cases hl : List.lookup order_id b.orders with
    | none => rfl
    | some order =>
      repeat' split
      all_goals rfl

/-- C10: for every initial capital and every sequence of
submit/execute/cancel operations on a fresh `PaperBroker`, the portfolio's
`total_realized_pnl` stays at its initial zero: realized P&L is recorded
only inside individual `Position` records, which are removed when a
position goes flat. -/
theorem paper_broker_total_realized_pnl_zero (initial_capital : ℚ)
    (ops : List BrokerOp) :
    ((PaperBroker.new initial_capital).runOps ops).portfolio.total_realized_pnl
      = 0 := by
  suffices h : ∀ (b : PaperBroker) (l : List BrokerOp),
      (b.runOps l).portfolio.total_realized_pnl =
        b.portfolio.total_realized_pnl by
    rw [h]; rfl
  intro b l
  induction l generalizing b with
  | nil => rfl
  | cons op rest ih =>
    have : b.runOps (op :: rest) = (b.applyOp op).runOps rest := rfl
    rw [this, ih, applyOp_preserves_total_realized_pnl]
